import Mathlib

/-!
Verification of the genesis-migration audit logic of `libra-framework`
(`tools/genesis/src/compare.rs`), as a shallow embedding in Lean 4.

Machine integers are modelled as `Nat`; `u64` overflow is made explicit with
`% 2 ^ 64` where the Rust code performs wrapping arithmetic.  A Rust panic
(`expect` / `unwrap` / `assert!` failure) is modelled as `Except.error` with
the panic message, so that code which aborts the run is distinguishable from
code which records a finding and continues.
-/

namespace LibraGenesis

/-- Account addresses (`AccountAddress`), modelled as natural numbers. -/
abbrev Addr := Nat

/-- The well-known reserved system address (`CORE_CODE_ADDRESS`, `0x1`). -/
def CORE_CODE_ADDRESS : Addr := 1

/-- Modelled from the spec: the role enum of `legacy_recovery_v6::AccountRole`
(the enum itself is not among the excerpted sources; the spec lists
`enum{Normal, Validator, OperatorOnly, Drop, ...}`).  Only `Drop` is
inspected by the audit code. -/
inductive AccountRole where
  | Normal
  | Validator
  | OperatorOnly
  | Drop
  deriving DecidableEq

/-- Legacy spendable balance carried by a recovery record (`{coin: u64}`). -/
structure LegacyBalance where
  coin : Nat
  deriving DecidableEq

/-- Slow-wallet balance split (`SlowWalletBalance`): unlocked and transferred
amounts, both `u64`.  The audit only reads `unlocked`. -/
structure SlowWalletBalance where
  unlocked : Nat
  transferred : Nat
  deriving DecidableEq

/-- Migrated on-chain balance resource (`GasCoinStoreResource`); the audit
reads its `coin()` value, a `u64`. -/
structure GasCoinStoreResource where
  coin : Nat
  deriving DecidableEq

/-- One legacy recovery record (`LegacyRecoveryV6`), restricted to the fields
the audit in `compare.rs` reads: `account`, `role`, `balance`,
`slow_wallet`. -/
structure LegacyRecoveryV6 where
  account : Option Addr
  role : AccountRole
  balance : Option LegacyBalance
  slow_wallet : Option SlowWalletBalance
  deriving DecidableEq

/-- Result of asking the state accessor for a typed resource at an address:
`err` models a decode failure (`Err` from `get_move_resource`, a
`ResourceDecodeError` in the spec's taxonomy), `none` models resource
absence (`Ok(None)`), `some` a successfully decoded resource. -/
inductive ResourceResult (α : Type) where
  | err
  | none
  | some (val : α)
  deriving DecidableEq

/-- The migrated ledger snapshot reachable through the state accessor
(`db_reader` bound to the latest state checkpoint view): per-address typed
resource lookups, the independently computed total supply, and the
validator set stored at the core address. -/
structure DbState where
  balanceRes : Addr → ResourceResult GasCoinStoreResource
  slowRes : Addr → ResourceResult SlowWalletBalance
  totalSupply : Nat
  valSet : List Addr

/-- `CompareError` (`compare.rs` lines 26-39): one audit finding. -/
structure CompareError where
  index : Nat
  account : Option Addr
  expected : Nat
  migrated : Nat
  message : String
  deriving DecidableEq

/-- `2 ^ 64`, the modulus of wrapping `u64` arithmetic. -/
def U64_MOD : Nat := 2 ^ 64

/-- Modelled from the spec: `legacy_recovery_v6::strip_system_address` is not
among the excerpted sources.  The spec describes it as "an explicit
pre-processing filter over the Recovery Record Store" that strips "special
system accounts"; we model it as removing every record whose account is the
well-known system address. -/
def strip_system_address (recovery : List LegacyRecoveryV6) :
    List LegacyRecoveryV6 :=
  recovery.filter (fun r => !(r.account == Option.some CORE_CODE_ADDRESS))

/-- The body of the audit loop of `compare_recovery_vec_to_genesis_tx`
(`compare.rs` lines 57-129) for one record at enumeration index `i`:
returns the findings pushed to `err_list` for this record together with the
amount added to the `user_supply` accumulator, or `.error msg` when the
Rust code panics (`expect` / `unwrap`). -/
def auditRecord (db : DbState) (i : Nat) (old : LegacyRecoveryV6) :
    Except String (List CompareError × Nat) :=
  if old.role = AccountRole.Drop then
    Except.ok ([], 0)
  else
    match old.account with
    | Option.none =>
        Except.ok ([{ index := i, account := Option.none, expected := 0,
                      migrated := 0, message := "account is None" }], 0)
    | Option.some convert_address =>
      match db.balanceRes convert_address with
      | ResourceResult.err => Except.error "should have move resource"
      | ResourceResult.none =>
          -- "account without a balance struct": println and return (soft skip)
          Except.ok ([], 0)
      | ResourceResult.some on_chain_balance =>
        match old.balance with
        | Option.none => Except.error "should have a balance struct"
        | Option.some old_balance =>
          let balErrs : List CompareError :=
            if on_chain_balance.coin ≠ old_balance.coin then
              [{ index := i, account := old.account,
                 expected := old_balance.coin,
                 migrated := on_chain_balance.coin,
                 message := "unexpected balance" }]
            else []
          match old.slow_wallet with
          | Option.none => Except.ok (balErrs, on_chain_balance.coin)
          | Option.some old_slow =>
            match db.slowRes convert_address with
            | ResourceResult.err =>
                Except.error "should have a slow wallet struct"
            | ResourceResult.none =>
                Except.error "called Option unwrap on a None value"
            | ResourceResult.some new_slow =>
              let slowErrs : List CompareError :=
                if new_slow.unlocked ≠ old_slow.unlocked then
                  [{ index := i, account := old.account,
                     expected := old_slow.unlocked,
                     migrated := new_slow.unlocked,
                     message := "unexpected slow wallet unlocked" }]
                else []
              let unlockErrs : List CompareError :=
                if new_slow.unlocked > on_chain_balance.coin then
                  [{ index := i, account := old.account,
                     expected := new_slow.unlocked,
                     migrated := on_chain_balance.coin,
                     message := "unlocked greater than balance" }]
                else []
              Except.ok (balErrs ++ slowErrs ++ unlockErrs,
                         on_chain_balance.coin)

/-- The enumerated `for_each` of `compare_recovery_vec_to_genesis_tx`
(`compare.rs` lines 52-130): threads the enumeration index `i` and the
`u64` accumulator `user_supply` (wrapping at `2 ^ 64`) through the records,
appending each record's findings to the error list; a panic in any record's
body aborts the whole run. -/
def compareLoop (db : DbState) :
    Nat → Nat → List LegacyRecoveryV6 →
    Except String (List CompareError × Nat)
  | _, user_supply, [] => Except.ok ([], user_supply)
  | i, user_supply, old :: rest =>
    match auditRecord db i old with
    | Except.error e => Except.error e
    | Except.ok (errs, c) =>
      match compareLoop db (i + 1) ((user_supply + c) % U64_MOD) rest with
      | Except.error e => Except.error e
      | Except.ok (l, sup) => Except.ok (errs ++ l, sup)

/-- `compare_recovery_vec_to_genesis_tx` (`compare.rs` lines 42-132): strips
system addresses from the recovery records, then audits each remaining
record against the migrated state.  The Rust function returns only
`err_list`; for auditability we also return the final value of the
internal `u64` accumulator `user_supply` (line 48), which the Rust code
computes and then discards. -/
def compare_recovery_vec_to_genesis_tx (db : DbState)
    (recovery : List LegacyRecoveryV6) :
    Except String (List CompareError × Nat) :=
  compareLoop db 0 0 (strip_system_address recovery)

/-- `get_val_set` (`compare.rs` lines 203-212): the validator addresses read
from the validator-set resource at the core address. -/
def get_val_set (db : DbState) : List Addr := db.valSet

/-- `check_val_set` (`compare.rs` lines 230-249): asserts the migrated and
expected validator lists have equal length, then asserts that every
expected address occurs in the migrated list.  An `assert!` failure is a
panic, modelled as `.error` with its message. -/
def check_val_set (expected_vals : List Addr) (db : DbState) :
    Except String Unit :=
  let addrs := get_val_set db
  if addrs.length = expected_vals.length then
    if expected_vals.all (fun v => addrs.contains v) then Except.ok ()
    else Except.error "genesis does not contain validator"
  else Except.error "validator set length mismatch"

/-- Modelled from the spec: `genesis_reader::total_supply` is not among the
excerpted sources; the spec describes it as the "independently-derived
total supply from the ledger snapshot (not from the Auditor's running
total)".  We model it as a `u128`-ranged field of the snapshot. -/
def total_supply (db : DbState) : Nat := db.totalSupply

/-- `check_supply` (`compare.rs` lines 252-269): widens `expected_supply` to
`u128` (the identity on `Nat`) and asserts equality with the on-chain
total supply; the `assert_eq!` failure is a panic, modelled as `.error`. -/
def check_supply (expected_supply : Nat) (db : DbState) :
    Except String Unit :=
  if expected_supply = total_supply db then Except.ok ()
  else Except.error "supply mismatch"

/-- A record on which the audit loop body completes without panicking: it is
dropped, lacks an account, soft-skips on an absent balance resource, or has
every resource the body unwraps (decodable balance resource together with a
legacy balance struct, and a present, decodable slow-wallet resource
whenever the record carries a slow-wallet split). -/
def recordOk (db : DbState) (old : LegacyRecoveryV6) : Bool :=
  if old.role = AccountRole.Drop then true
  else
    match old.account with
    | Option.none => true
    | Option.some a =>
      match db.balanceRes a with
      | ResourceResult.err => false
      | ResourceResult.none => true
      | ResourceResult.some _ =>
        old.balance.isSome &&
          (match old.slow_wallet with
           | Option.none => true
           | Option.some _ =>
             match db.slowRes a with
             | ResourceResult.some _ => true
             | _ => false)

/-- The migrated coin amount a record contributes to the running
`user_supply` total: the on-chain balance for every audited record that
reaches the accumulation line, `0` for records that are dropped, lack an
account, or soft-skip on an absent balance resource. -/
def coinContribution (db : DbState) (old : LegacyRecoveryV6) : Nat :=
  if old.role = AccountRole.Drop then 0
  else
    match old.account with
    | Option.none => 0
    | Option.some a =>
      match db.balanceRes a with
      | ResourceResult.some b => b.coin
      | _ => 0

/-! ## Concrete snapshots and records used by witnesses and counterexamples -/

/-- A snapshot on which every balance-resource lookup fails to decode. -/
def dbDecodeErr : DbState :=
  { balanceRes := fun _ => ResourceResult.err
    slowRes := fun _ => ResourceResult.none
    totalSupply := 0
    valSet := [] }

/-- A snapshot with no resources at any address; total supply 999. -/
def dbSupply999 : DbState :=
  { balanceRes := fun _ => ResourceResult.none
    slowRes := fun _ => ResourceResult.none
    totalSupply := 999
    valSet := [] }

/-- A snapshot whose validator set is `[1, 2]` and which holds no resources. -/
def dbValSet12 : DbState :=
  { balanceRes := fun _ => ResourceResult.none
    slowRes := fun _ => ResourceResult.none
    totalSupply := 0
    valSet := [1, 2] }

/-- A record at the system address: removed by normalization. -/
def recSys : LegacyRecoveryV6 :=
  { account := Option.some CORE_CODE_ADDRESS
    role := AccountRole.Normal
    balance := Option.none
    slow_wallet := Option.none }

/-- A record missing its account identity. -/
def recNoAccount : LegacyRecoveryV6 :=
  { account := Option.none
    role := AccountRole.Normal
    balance := Option.none
    slow_wallet := Option.none }

/-! ## Helper lemmas about the audit loop -/

theorem auditRecord_of_drop (db : DbState) (i : Nat) (old : LegacyRecoveryV6)
    (h : old.role = AccountRole.Drop) :
    auditRecord db i old = Except.ok ([], 0) := by
  simp [auditRecord, h]

theorem auditRecord_of_no_account (db : DbState) (i : Nat)
    (old : LegacyRecoveryV6) (h1 : old.role ≠ AccountRole.Drop)
    (h2 : old.account = Option.none) :
    auditRecord db i old =
      Except.ok ([{ index := i, account := Option.none, expected := 0,
                    migrated := 0, message := "account is None" }], 0) := by
  simp [auditRecord, h1, h2]

/-! ## C6: `Drop` records are excluded from all checks -/

/-- C6 — For every record with `role = Drop`, the audit loop emits no finding
of any kind and leaves the supply accumulator untouched, regardless of the
record's other fields and of the migrated state: processing `r :: rest` is
identical to processing `rest` at the next index. -/
theorem drop_records_emit_no_finding (db : DbState) (i s : Nat)
    (r : LegacyRecoveryV6) (rest : List LegacyRecoveryV6)
    (hrole : r.role = AccountRole.Drop) (hs : s < U64_MOD) :
    compareLoop db i s (r :: rest) = compareLoop db (i + 1) s rest := by
  have ha := auditRecord_of_drop db i r hrole
  simp only [compareLoop, ha, Nat.add_zero, Nat.mod_eq_of_lt hs]
  cases hrec : compareLoop db (i + 1) s rest <;> simp

/-- Witness for C6 at a concrete dropped record and snapshot. -/
theorem drop_records_emit_no_finding_witness :
    ({ account := Option.some 7, role := AccountRole.Drop,
       balance := Option.some ⟨123⟩,
       slow_wallet := Option.none } : LegacyRecoveryV6).role =
        AccountRole.Drop ∧
    (0 : Nat) < U64_MOD ∧
    compareLoop dbDecodeErr 0 0
        [{ account := Option.some 7, role := AccountRole.Drop,
           balance := Option.some ⟨123⟩, slow_wallet := Option.none }] =
      compareLoop dbDecodeErr 1 0 [] :=
  ⟨rfl, by decide,
    drop_records_emit_no_finding dbDecodeErr 0 0 _ [] rfl (by decide)⟩

/-! ## C7: records without an account yield exactly one MissingAccount -/

/-- C7 — For every non-`Drop` record whose `account` is absent, the audit
loop emits exactly one finding, with `expected = 0`, `migrated = 0` and the
"account is None" message, performs no further checks on that record, and
leaves the supply accumulator untouched: the result for `r :: rest` is the
result for `rest` with that single finding prepended. -/
theorem missing_account_single_finding (db : DbState) (i s : Nat)
    (r : LegacyRecoveryV6) (rest : List LegacyRecoveryV6)
    (hrole : r.role ≠ AccountRole.Drop) (hacc : r.account = Option.none)
    (hs : s < U64_MOD) :
    compareLoop db i s (r :: rest) =
      (compareLoop db (i + 1) s rest).map
        (fun p => ({ index := i, account := Option.none, expected := 0,
                     migrated := 0, message := "account is None" } :: p.1,
                   p.2)) := by
  have ha := auditRecord_of_no_account db i r hrole hacc
  simp only [compareLoop, ha, Nat.add_zero, Nat.mod_eq_of_lt hs]
  cases hrec : compareLoop db (i + 1) s rest <;> simp [Except.map]

/-- Witness for C7 at a concrete record and snapshot. -/
theorem missing_account_single_finding_witness :
    recNoAccount.role ≠ AccountRole.Drop ∧
    recNoAccount.account = Option.none ∧
    compareLoop dbSupply999 0 0 [recNoAccount] =
      (compareLoop dbSupply999 1 0 []).map
        (fun p => ({ index := 0, account := Option.none, expected := 0,
                     migrated := 0, message := "account is None" } :: p.1,
                   p.2)) :=
  ⟨by decide, rfl,
    missing_account_single_finding dbSupply999 0 0 recNoAccount []
      (by decide) rfl (by decide)⟩

/-! ## C4: supply check semantics -/

/-- C4 — `check_supply` compares the externally supplied expected value
(widened to `u128`, the identity on `Nat`) against the total supply
computed independently from the snapshot: it returns `Ok(())` exactly when
they are equal, and on inequality it aborts with the supply-mismatch panic
rather than returning a finding list. -/
theorem check_supply_ok_iff (e : Nat) (db : DbState) :
    (check_supply e db = Except.ok () ↔ e = total_supply db) ∧
    (e ≠ total_supply db →
      check_supply e db = Except.error "supply mismatch") := by
  by_cases h : e = total_supply db <;> simp [check_supply, h]

/-- Witness for C4: expected 1000 against computed supply 999 aborts. -/
theorem check_supply_ok_iff_witness :
    (1000 : Nat) ≠ total_supply dbSupply999 ∧
    check_supply 1000 dbSupply999 = Except.error "supply mismatch" :=
  ⟨by decide, (check_supply_ok_iff 1000 dbSupply999).2 (by decide)⟩

/-! ## C2: balance comparison for audited records -/

/-- C2 — For every non-`Drop` record with a resolvable account and a legacy
balance: if the migrated balance resource is absent the audit loop emits no
finding for the record and moves on (soft skip); if it is present, the
record's findings contain the balance finding — with `expected` the legacy
coin value and `migrated` the on-chain coin value — exactly when the two
values differ, and contain no balance finding when they are equal. -/
theorem balance_mismatch_check (db : DbState) (i s : Nat) (a : Addr)
    (lb : LegacyBalance) (r : LegacyRecoveryV6)
    (rest : List LegacyRecoveryV6)
    (hrole : r.role ≠ AccountRole.Drop) (hacc : r.account = Option.some a)
    (hbal : r.balance = Option.some lb) (hs : s < U64_MOD) :
    (db.balanceRes a = ResourceResult.none →
      compareLoop db i s (r :: rest) = compareLoop db (i + 1) s rest) ∧
    (∀ (bal : GasCoinStoreResource) (errs : List CompareError) (c : Nat),
      db.balanceRes a = ResourceResult.some bal →
      auditRecord db i r = Except.ok (errs, c) →
      errs.filter (fun e => e.message == "unexpected balance") =
        if bal.coin = lb.coin then []
        else [{ index := i, account := Option.some a, expected := lb.coin,
                migrated := bal.coin, message := "unexpected balance" }]) := by
  constructor
  · intro h
    have ha : auditRecord db i r = Except.ok ([], 0) := by
      simp [auditRecord, hrole, hacc, h]
    simp only [compareLoop, ha, Nat.add_zero, Nat.mod_eq_of_lt hs]
    cases hrec : compareLoop db (i + 1) s rest <;> simp
  · intro bal errs c hres hok
    simp only [auditRecord, hacc, hbal, hres] at hok
    rw [if_neg hrole] at hok
    cases hsw : r.slow_wallet with
    | none =>
      rw [hsw] at hok
      simp only [Except.ok.injEq, Prod.mk.injEq] at hok
      obtain ⟨he, -⟩ := hok
      subst he
      by_cases hc : bal.coin = lb.coin <;> simp [hc]
    | some osw =>
      rw [hsw] at hok
      cases hsr : db.slowRes a with
      | err => rw [hsr] at hok; exact absurd hok (by simp)
      | none => rw [hsr] at hok; exact absurd hok (by simp)
      | some nsw =>
        rw [hsr] at hok
        simp only [Except.ok.injEq, Prod.mk.injEq] at hok
        obtain ⟨he, -⟩ := hok
        subst he
        by_cases hc : bal.coin = lb.coin <;>
          by_cases hu : nsw.unlocked = osw.unlocked <;>
            by_cases hg : nsw.unlocked > bal.coin <;>
              simp [hc, hu, hg, List.filter_append]

/-- Witness for C2: legacy balance 50 against migrated balance 40 yields the
balance finding with expected 50 and migrated 40. -/
theorem balance_mismatch_check_witness :
    (({ account := Option.some 9, role := AccountRole.Normal,
        balance := Option.some ⟨50⟩,
        slow_wallet := Option.none } : LegacyRecoveryV6).role ≠
          AccountRole.Drop ∧ (0 : Nat) < U64_MOD) ∧
    ({ balanceRes := fun _ => ResourceResult.some ⟨40⟩
       slowRes := fun _ => ResourceResult.none
       totalSupply := 0
       valSet := [] } : DbState).balanceRes 9 =
        ResourceResult.some ⟨40⟩ ∧
    ([{ index := 0, account := Option.some 9, expected := 50, migrated := 40,
        message := "unexpected balance" }] : List CompareError).filter
        (fun e => e.message == "unexpected balance") =
      [{ index := 0, account := Option.some 9, expected := 50, migrated := 40,
         message := "unexpected balance" }] :=
  ⟨⟨by decide, by decide⟩, rfl, by
    have h := (balance_mismatch_check
      ({ balanceRes := fun _ => ResourceResult.some ⟨40⟩
         slowRes := fun _ => ResourceResult.none
         totalSupply := 0
         valSet := [] }) 0 0 9 ⟨50⟩
      ({ account := Option.some 9, role := AccountRole.Normal,
         balance := Option.some ⟨50⟩, slow_wallet := Option.none }) []
      (by decide) rfl rfl (by decide)).2 ⟨40⟩
      [{ index := 0, account := Option.some 9, expected := 50,
         migrated := 40, message := "unexpected balance" }] 40 rfl rfl
    rw [if_neg (by decide : ¬ ((40 : Nat) = 50))] at h
    exact h⟩

/-! ## C8: unlocked greater than balance is a standalone check -/

/-- C8 — For every audited record carrying a slow-wallet split whose migrated
slow-wallet and balance resources decode, if the migrated unlocked amount
exceeds the migrated balance then the record's findings contain the
"unlocked greater than balance" finding; the hypotheses place no constraint
on whether the unlocked amount matches the legacy value, so the check is
independent of the slow-wallet mismatch check. -/
theorem unlock_exceeds_balance_standalone (db : DbState) (i : Nat) (a : Addr)
    (lb : LegacyBalance) (osw nsw : SlowWalletBalance)
    (bal : GasCoinStoreResource) (r : LegacyRecoveryV6)
    (hrole : r.role ≠ AccountRole.Drop) (hacc : r.account = Option.some a)
    (hbal : r.balance = Option.some lb)
    (hsw : r.slow_wallet = Option.some osw)
    (hbr : db.balanceRes a = ResourceResult.some bal)
    (hsr : db.slowRes a = ResourceResult.some nsw)
    (hgt : bal.coin < nsw.unlocked) :
    ∃ errs c, auditRecord db i r = Except.ok (errs, c) ∧
      { index := i, account := Option.some a, expected := nsw.unlocked,
        migrated := bal.coin,
        message := "unlocked greater than balance" } ∈ errs := by
  by_cases hc : bal.coin = lb.coin <;> by_cases hu : nsw.unlocked = osw.unlocked
  · exact ⟨[{ index := i, account := Option.some a, expected := nsw.unlocked,
              migrated := bal.coin,
              message := "unlocked greater than balance" }], bal.coin,
      by simp [auditRecord, hrole, hacc, hbal, hsw, hbr, hsr, hc, hu, hgt]
         omega,
      by simp⟩
  · exact ⟨[{ index := i, account := Option.some a, expected := osw.unlocked,
              migrated := nsw.unlocked,
              message := "unexpected slow wallet unlocked" },
            { index := i, account := Option.some a, expected := nsw.unlocked,
              migrated := bal.coin,
              message := "unlocked greater than balance" }], bal.coin,
      by simp [auditRecord, hrole, hacc, hbal, hsw, hbr, hsr, hc, hu, hgt]
         omega,
      by simp⟩
  · exact ⟨[{ index := i, account := Option.some a, expected := lb.coin,
              migrated := bal.coin, message := "unexpected balance" },
            { index := i, account := Option.some a, expected := nsw.unlocked,
              migrated := bal.coin,
              message := "unlocked greater than balance" }], bal.coin,
      by simp [auditRecord, hrole, hacc, hbal, hsw, hbr, hsr, hc, hu, hgt]
         omega,
      by simp⟩
  · exact ⟨[{ index := i, account := Option.some a, expected := lb.coin,
              migrated := bal.coin, message := "unexpected balance" },
            { index := i, account := Option.some a, expected := osw.unlocked,
              migrated := nsw.unlocked,
              message := "unexpected slow wallet unlocked" },
            { index := i, account := Option.some a, expected := nsw.unlocked,
              migrated := bal.coin,
              message := "unlocked greater than balance" }], bal.coin,
      by simp [auditRecord, hrole, hacc, hbal, hsw, hbr, hsr, hc, hu, hgt],
      by simp⟩

/-- Witness for C8: migrated unlocked 30 equals the legacy unlocked 30, yet
unlocked 30 against balance 20 still yields the standalone finding. -/
theorem unlock_exceeds_balance_standalone_witness :
    (20 : Nat) < 30 ∧
    ∃ errs c,
      auditRecord
        ({ balanceRes := fun _ => ResourceResult.some ⟨20⟩
           slowRes := fun _ => ResourceResult.some ⟨30, 5⟩
           totalSupply := 0
           valSet := [] }) 0
        ({ account := Option.some 4, role := AccountRole.Normal,
           balance := Option.some ⟨20⟩,
           slow_wallet := Option.some ⟨30, 5⟩ }) = Except.ok (errs, c) ∧
      { index := 0, account := Option.some 4, expected := 30, migrated := 20,
        message := "unlocked greater than balance" } ∈ errs :=
  ⟨by decide,
    unlock_exceeds_balance_standalone
      ({ balanceRes := fun _ => ResourceResult.some ⟨20⟩
         slowRes := fun _ => ResourceResult.some ⟨30, 5⟩
         totalSupply := 0
         valSet := [] }) 0 4 ⟨20⟩ ⟨30, 5⟩ ⟨30, 5⟩ ⟨20⟩
      ({ account := Option.some 4, role := AccountRole.Normal,
         balance := Option.some ⟨20⟩, slow_wallet := Option.some ⟨30, 5⟩ })
      (by decide) rfl rfl rfl rfl rfl (by decide)⟩

/-! ## C10: the audit is not total — missing legacy fields panic -/

/-- A snapshot with a decodable balance resource of 5 coins at every address
and no slow-wallet resources. -/
def dbBalOnly : DbState :=
  { balanceRes := fun _ => ResourceResult.some ⟨5⟩
    slowRes := fun _ => ResourceResult.none
    totalSupply := 0
    valSet := [] }

/-- C10 — The audit is not total on its input domain: for a non-`Drop` record
with an account (surviving normalization) whose migrated balance resource
decodes, the run panics — rather than emitting a finding or returning an
error value — when the record's legacy `balance` field is `None`, and
likewise panics when the record carries a slow-wallet split but the
migrated slow-wallet resource is absent for that account. -/
theorem audit_panics_on_missing_legacy_fields :
    (∀ (db : DbState) (r : LegacyRecoveryV6) (rest : List LegacyRecoveryV6)
        (a : Addr) (bal : GasCoinStoreResource),
      r.role ≠ AccountRole.Drop → r.account = Option.some a →
      a ≠ CORE_CODE_ADDRESS →
      db.balanceRes a = ResourceResult.some bal →
      r.balance = Option.none →
      compare_recovery_vec_to_genesis_tx db (r :: rest) =
        Except.error "should have a balance struct") ∧
    (∀ (db : DbState) (r : LegacyRecoveryV6) (rest : List LegacyRecoveryV6)
        (a : Addr) (bal : GasCoinStoreResource) (lb : LegacyBalance)
        (osw : SlowWalletBalance),
      r.role ≠ AccountRole.Drop → r.account = Option.some a →
      a ≠ CORE_CODE_ADDRESS →
      db.balanceRes a = ResourceResult.some bal →
      r.balance = Option.some lb → r.slow_wallet = Option.some osw →
      db.slowRes a = ResourceResult.none →
      compare_recovery_vec_to_genesis_tx db (r :: rest) =
        Except.error "called Option unwrap on a None value") := by
  constructor
  · intro db r rest a bal hrole hacc ha hbr hbal
    have hstrip : strip_system_address (r :: rest) =
        r :: strip_system_address rest := by
      simp [strip_system_address, List.filter_cons, hacc, ha]
    have ha1 : auditRecord db 0 r =
        Except.error "should have a balance struct" := by
      simp [auditRecord, hrole, hacc, hbr, hbal]
    simp [compare_recovery_vec_to_genesis_tx, hstrip, compareLoop, ha1]
  · intro db r rest a bal lb osw hrole hacc ha hbr hbal hsw hsr
    have hstrip : strip_system_address (r :: rest) =
        r :: strip_system_address rest := by
      simp [strip_system_address, List.filter_cons, hacc, ha]
    have ha1 : auditRecord db 0 r =
        Except.error "called Option unwrap on a None value" := by
      simp [auditRecord, hrole, hacc, hbr, hbal, hsw, hsr]
    simp [compare_recovery_vec_to_genesis_tx, hstrip, compareLoop, ha1]

/-- Witness for C10: a record without a legacy balance struct, and a
slow-wallet record whose migrated slow-wallet resource is absent, each
abort the whole audit with the corresponding panic. -/
theorem audit_panics_on_missing_legacy_fields_witness :
    compare_recovery_vec_to_genesis_tx dbBalOnly
        [{ account := Option.some 2, role := AccountRole.Normal,
           balance := Option.none, slow_wallet := Option.none }] =
      Except.error "should have a balance struct" ∧
    compare_recovery_vec_to_genesis_tx dbBalOnly
        [{ account := Option.some 2, role := AccountRole.Normal,
           balance := Option.some ⟨5⟩, slow_wallet := Option.some ⟨1, 0⟩ }] =
      Except.error "called Option unwrap on a None value" :=
  ⟨audit_panics_on_missing_legacy_fields.1 dbBalOnly
      ({ account := Option.some 2, role := AccountRole.Normal,
         balance := Option.none, slow_wallet := Option.none }) [] 2 ⟨5⟩
      (by decide) rfl (by decide) rfl rfl,
    audit_panics_on_missing_legacy_fields.2 dbBalOnly
      ({ account := Option.some 2, role := AccountRole.Normal,
         balance := Option.some ⟨5⟩, slow_wallet := Option.some ⟨1, 0⟩ }) []
      2 ⟨5⟩ ⟨5⟩ ⟨1, 0⟩ (by decide) rfl (by decide) rfl rfl rfl rfl⟩

/-! ## C1: a decode error aborts the whole run (counterexample), and the
run completes exactly when every normalized record avoids the panics -/

/-- C1 counterexample — On a snapshot whose balance resource fails to decode,
the very first record's `ResourceDecodeError` terminates the audit with a
panic: the run aborts and the remaining record (which would have produced a
"account is None" finding) is never audited, so no finding list is
returned. -/
theorem decode_error_aborts_run :
    compare_recovery_vec_to_genesis_tx dbDecodeErr
        [{ account := Option.some 2, role := AccountRole.Normal,
           balance := Option.some ⟨100⟩, slow_wallet := Option.none },
         recNoAccount] =
      Except.error "should have move resource" := rfl

theorem auditRecord_isOk_of_recordOk (db : DbState) (i : Nat)
    (r : LegacyRecoveryV6) (h : recordOk db r = true) :
    (auditRecord db i r).isOk = true := by
  by_cases hrole : r.role = AccountRole.Drop
  · simp [auditRecord, hrole, Except.isOk, Except.toBool]
  · cases hacc : r.account with
    | none => simp [auditRecord, hrole, hacc, Except.isOk, Except.toBool]
    | some a =>
      simp only [recordOk, hrole, if_false, hacc] at h
      cases hbr : db.balanceRes a with
      | err => rw [hbr] at h; simp at h
      | none => simp [auditRecord, hrole, hacc, hbr, Except.isOk, Except.toBool]
      | some bal =>
        rw [hbr] at h
        simp only [Bool.and_eq_true] at h
        obtain ⟨h1, h2⟩ := h
        cases hbal : r.balance with
        | none => rw [hbal] at h1; simp at h1
        | some lb =>
          cases hsw : r.slow_wallet with
          | none => simp [auditRecord, hrole, hacc, hbr, hbal, hsw, Except.isOk, Except.toBool]
          | some osw =>
            rw [hsw] at h2
            cases hsr : db.slowRes a with
            | err => rw [hsr] at h2; simp at h2
            | none => rw [hsr] at h2; simp at h2
            | some nsw => simp [auditRecord, hrole, hacc, hbr, hbal, hsw, hsr, Except.isOk, Except.toBool]

theorem compareLoop_isOk (db : DbState) (recs : List LegacyRecoveryV6) :
    ∀ (i s : Nat), (∀ r ∈ recs, recordOk db r = true) →
      (compareLoop db i s recs).isOk = true := by
  induction recs with
  | nil => intro i s _; rfl
  | cons r rest ih =>
    intro i s h
    have h1 := auditRecord_isOk_of_recordOk db i r (h r (List.mem_cons_self r rest))
    cases har : auditRecord db i r with
    | error e => rw [har] at h1; simp [Except.isOk, Except.toBool] at h1
    | ok p =>
      obtain ⟨errs, c⟩ := p
      have h2 := ih (i + 1) ((s + c) % U64_MOD)
        (fun x hx => h x (List.mem_cons_of_mem r hx))
      cases hrec : compareLoop db (i + 1) ((s + c) % U64_MOD) rest with
      | error e => rw [hrec] at h2; simp [Except.isOk, Except.toBool] at h2
      | ok q => simp [compareLoop, har, hrec, Except.isOk, Except.toBool]

/-- C1 amended — The audit never aborts because of a *finding*: whenever every
normalized record satisfies `recordOk` (no balance-resource decode error,
no missing legacy balance struct for an audited account, no missing or
undecodable migrated slow-wallet resource for a record with a slow-wallet
split), the full run completes and returns the finding list, however many
mismatch findings the records produce.  (A decode error, by contrast,
panics: see the counterexample.) -/
theorem audit_completes_when_records_ok (db : DbState)
    (recovery : List LegacyRecoveryV6)
    (h : ∀ r ∈ strip_system_address recovery, recordOk db r = true) :
    (compare_recovery_vec_to_genesis_tx db recovery).isOk = true :=
  compareLoop_isOk db (strip_system_address recovery) 0 0 h

/-- Witness for C1's amended theorem: a run over a record with a genuine
balance mismatch (a finding) still completes. -/
theorem audit_completes_when_records_ok_witness :
    (∀ r ∈ strip_system_address
        [{ account := Option.some 9, role := AccountRole.Normal,
           balance := Option.some ⟨50⟩, slow_wallet := Option.none }],
      recordOk
        ({ balanceRes := fun _ => ResourceResult.some ⟨40⟩
           slowRes := fun _ => ResourceResult.none
           totalSupply := 0
           valSet := [] } : DbState) r = true) ∧
    (compare_recovery_vec_to_genesis_tx
        ({ balanceRes := fun _ => ResourceResult.some ⟨40⟩
           slowRes := fun _ => ResourceResult.none
           totalSupply := 0
           valSet := [] })
        [{ account := Option.some 9, role := AccountRole.Normal,
           balance := Option.some ⟨50⟩,
           slow_wallet := Option.none }]).isOk = true :=
  ⟨by decide,
    audit_completes_when_records_ok _ _ (by decide)⟩

/-! ## C3: the supply accumulator is 64-bit and can wrap -/

/-- A snapshot giving every address a migrated balance of `2 ^ 63` coins. -/
def dbBig : DbState :=
  { balanceRes := fun _ => ResourceResult.some ⟨2 ^ 63⟩
    slowRes := fun _ => ResourceResult.none
    totalSupply := 0
    valSet := [] }

/-- A record whose legacy balance matches the `2 ^ 63`-coin migrated state. -/
def recBig (a : Addr) : LegacyRecoveryV6 :=
  { account := Option.some a
    role := AccountRole.Normal
    balance := Option.some ⟨2 ^ 63⟩
    slow_wallet := Option.none }

/-- C3 counterexample — the running supply total is *not* overflow-safe:
auditing two accounts of `2 ^ 63` coins each (legal `u64` balances) ends
with accumulator value `0`, although the true sum of the audited migrated
balances is `2 ^ 64`; a 128-bit accumulator would have returned `2 ^ 64`. -/
theorem supply_accumulator_wraps :
    compare_recovery_vec_to_genesis_tx dbBig [recBig 2, recBig 3] =
      Except.ok ([], 0) ∧
    ([recBig 2, recBig 3].map (coinContribution dbBig)).sum = 2 ^ 64 ∧
    (0 : Nat) ≠ 2 ^ 64 :=
  ⟨rfl, rfl, by decide⟩

theorem auditRecord_coin (db : DbState) (i : Nat) (r : LegacyRecoveryV6)
    (errs : List CompareError) (c : Nat)
    (h : auditRecord db i r = Except.ok (errs, c)) :
    c = coinContribution db r := by
  by_cases hrole : r.role = AccountRole.Drop
  · rw [auditRecord_of_drop db i r hrole] at h
    simp only [Except.ok.injEq, Prod.mk.injEq] at h
    simp [coinContribution, hrole, ← h.2]
  · cases hacc : r.account with
    | none =>
      rw [auditRecord_of_no_account db i r hrole hacc] at h
      simp only [Except.ok.injEq, Prod.mk.injEq] at h
      simp [coinContribution, hrole, hacc, ← h.2]
    | some a =>
      cases hbr : db.balanceRes a with
      | err => simp [auditRecord, hrole, hacc, hbr] at h
      | none =>
        simp only [auditRecord, hacc, hbr] at h
        rw [if_neg hrole] at h
        simp only [Except.ok.injEq, Prod.mk.injEq] at h
        simp [coinContribution, hrole, hacc, hbr, ← h.2]
      | some bal =>
        cases hbal : r.balance with
        | none => simp [auditRecord, hrole, hacc, hbr, hbal] at h
        | some lb =>
          cases hsw : r.slow_wallet with
          | none =>
            simp only [auditRecord, hacc, hbr, hbal, hsw] at h
            rw [if_neg hrole] at h
            simp only [Except.ok.injEq, Prod.mk.injEq] at h
            simp [coinContribution, hrole, hacc, hbr, ← h.2]
          | some osw =>
            cases hsr : db.slowRes a with
            | err => simp [auditRecord, hrole, hacc, hbr, hbal, hsw, hsr] at h
            | none => simp [auditRecord, hrole, hacc, hbr, hbal, hsw, hsr] at h
            | some nsw =>
              simp only [auditRecord, hacc, hbr, hbal, hsw, hsr] at h
              rw [if_neg hrole] at h
              simp only [Except.ok.injEq, Prod.mk.injEq] at h
              simp [coinContribution, hrole, hacc, hbr, ← h.2]

theorem compareLoop_supply (db : DbState) (recs : List LegacyRecoveryV6) :
    ∀ (i s : Nat) (l : List CompareError) (sup : Nat), s < U64_MOD →
      compareLoop db i s recs = Except.ok (l, sup) →
      sup = (s + (recs.map (coinContribution db)).sum) % U64_MOD := by
  induction recs with
  | nil =>
    intro i s l sup hs h
    simp only [compareLoop, Except.ok.injEq, Prod.mk.injEq] at h
    simp [← h.2, Nat.mod_eq_of_lt hs]
  | cons r rest ih =>
    intro i s l sup hs h
    cases har : auditRecord db i r with
    | error e => simp [compareLoop, har] at h
    | ok p =>
      obtain ⟨errs, c⟩ := p
      cases hrec : compareLoop db (i + 1) ((s + c) % U64_MOD) rest with
      | error e => simp [compareLoop, har, hrec] at h
      | ok q =>
        obtain ⟨l2, sup2⟩ := q
        simp only [compareLoop, har, hrec, Except.ok.injEq,
          Prod.mk.injEq] at h
        obtain ⟨-, hsup⟩ := h
        have hmod : (s + c) % U64_MOD < U64_MOD :=
          Nat.mod_lt _ (by decide)
        have hrc := ih (i + 1) ((s + c) % U64_MOD) l2 sup2 hmod hrec
        have hc := auditRecord_coin db i r errs c har
        subst hsup hc
        rw [hrc, Nat.mod_add_mod, Nat.add_assoc]
        simp

/-- C3 amended — the Auditor's running supply total is a 64-bit accumulator:
for every run that completes, the final accumulator value equals the sum of
the audited migrated balances reduced modulo `2 ^ 64`, so the total is
correct only while that sum stays below `2 ^ 64` and wraps (overflows)
beyond it; no widening to 128 bits takes place during the audit. -/
theorem supply_is_wrapped_sum (db : DbState)
    (recovery : List LegacyRecoveryV6) (l : List CompareError) (sup : Nat)
    (h : compare_recovery_vec_to_genesis_tx db recovery =
      Except.ok (l, sup)) :
    sup = ((strip_system_address recovery).map
        (coinContribution db)).sum % U64_MOD := by
  have hz := compareLoop_supply db (strip_system_address recovery) 0 0 l sup
    (by decide) h
  simpa using hz

/-- Witness for C3's amended theorem at the wrapping run. -/
theorem supply_is_wrapped_sum_witness :
    compare_recovery_vec_to_genesis_tx dbBig [recBig 2, recBig 3] =
      Except.ok ([], 0) ∧
    (0 : Nat) = ((strip_system_address [recBig 2, recBig 3]).map
        (coinContribution dbBig)).sum % U64_MOD :=
  ⟨rfl, supply_is_wrapped_sum dbBig [recBig 2, recBig 3] [] 0 rfl⟩

/-! ## C5: validator-set check order -/

/-- C5 counterexample — a migrated validator set holding the same member as
the expected set plus one extra fails on the *length* check, not on
membership: `check_val_set` reports the length-mismatch panic even though
every expected address is contained in the migrated set (the membership
check, had it run, would have passed). -/
theorem val_set_extra_fails_on_length :
    check_val_set [1] dbValSet12 =
      Except.error "validator set length mismatch" ∧
    (([1] : List Addr).all fun v => (get_val_set dbValSet12).contains v)
      = true :=
  ⟨rfl, rfl⟩

/-- C5 amended — `check_val_set` first compares the cardinalities of the
expected and migrated validator lists and fails fast with the
length-mismatch message whenever they differ (including when the migrated
set has the same members plus one extra — such inputs never reach the
membership check); when the lengths agree it succeeds exactly when every
expected address is a member of the migrated set (an order-independent
condition), and otherwise fails with the generic "genesis does not contain
validator" message, which does not name the missing validator. -/
theorem check_val_set_characterization (ev : List Addr) (db : DbState) :
    ((get_val_set db).length ≠ ev.length →
      check_val_set ev db = Except.error "validator set length mismatch") ∧
    ((get_val_set db).length = ev.length →
      (check_val_set ev db = Except.ok () ↔ ∀ v ∈ ev, v ∈ get_val_set db)) ∧
    ((get_val_set db).length = ev.length →
      (∃ v ∈ ev, v ∉ get_val_set db) →
      check_val_set ev db =
        Except.error "genesis does not contain validator") := by
  have hall : (ev.all fun v => (get_val_set db).contains v) = true ↔
      ∀ v ∈ ev, v ∈ get_val_set db := by simp
  refine ⟨?_, ?_, ?_⟩
  · intro h
    simp [check_val_set, h]
  · intro h
    by_cases hm : ∀ v ∈ ev, v ∈ get_val_set db
    · simp [check_val_set, h, hall.mpr hm, hm]
    · have hne : ¬(ev.all fun v => (get_val_set db).contains v) = true :=
        fun hc => hm (hall.mp hc)
      simp [check_val_set, h, hne, hm]
  · intro h hex
    have hm : ¬∀ v ∈ ev, v ∈ get_val_set db := by
      obtain ⟨v, hv, hnv⟩ := hex
      exact fun hc => hnv (hc v hv)
    have hne : ¬(ev.all fun v => (get_val_set db).contains v) = true :=
      fun hc => hm (hall.mp hc)
    simpa [check_val_set, h, hne] using hex

/-- Witness for C5's amended theorem: a length mismatch fails fast; equal
sets pass in any order; a same-size migrated set missing an expected
member fails on membership. -/
theorem check_val_set_characterization_witness :
    ((get_val_set dbValSet12).length ≠ ([1] : List Addr).length ∧
      check_val_set [1] dbValSet12 =
        Except.error "validator set length mismatch") ∧
    ((get_val_set dbValSet12).length = ([2, 1] : List Addr).length ∧
      check_val_set [2, 1] dbValSet12 = Except.ok ()) ∧
    ((get_val_set dbValSet12).length = ([1, 3] : List Addr).length ∧
      check_val_set [1, 3] dbValSet12 =
        Except.error "genesis does not contain validator") :=
  ⟨⟨by decide,
      (check_val_set_characterization [1] dbValSet12).1 (by decide)⟩,
   ⟨by decide,
      ((check_val_set_characterization [2, 1] dbValSet12).2.1
        (by decide)).mpr (by decide)⟩,
   ⟨by decide,
      (check_val_set_characterization [1, 3] dbValSet12).2.2 (by decide)
        ⟨3, by decide, by decide⟩⟩⟩

/-! ## C9: finding order and the meaning of the `index` field -/

theorem eq_of_mem_ite_singleton {α : Type} {P : Prop} [Decidable P]
    {x e : α} (h : e ∈ (if P then [x] else ([] : List α))) : e = x := by
  split at h
  · simpa using h
  · simp at h

theorem auditRecord_index (db : DbState) (i : Nat) (r : LegacyRecoveryV6)
    (errs : List CompareError) (c : Nat)
    (h : auditRecord db i r = Except.ok (errs, c)) :
    ∀ e ∈ errs, e.index = i := by
  by_cases hrole : r.role = AccountRole.Drop
  · rw [auditRecord_of_drop db i r hrole] at h
    simp only [Except.ok.injEq, Prod.mk.injEq] at h
    obtain ⟨h1, -⟩ := h
    subst h1
    intro e he
    simp at he
  · cases hacc : r.account with
    | none =>
      rw [auditRecord_of_no_account db i r hrole hacc] at h
      simp only [Except.ok.injEq, Prod.mk.injEq] at h
      obtain ⟨h1, -⟩ := h
      subst h1
      intro e he
      simp at he
      rw [he]
    | some a =>
      cases hbr : db.balanceRes a with
      | err => simp [auditRecord, hrole, hacc, hbr] at h
      | none =>
        simp only [auditRecord, hacc, hbr] at h
        rw [if_neg hrole] at h
        simp only [Except.ok.injEq, Prod.mk.injEq] at h
        obtain ⟨h1, -⟩ := h
        subst h1
        intro e he
        simp at he
      | some bal =>
        cases hbal : r.balance with
        | none => simp [auditRecord, hrole, hacc, hbr, hbal] at h
        | some lb =>
          cases hsw : r.slow_wallet with
          | none =>
            simp only [auditRecord, hacc, hbr, hbal, hsw] at h
            rw [if_neg hrole] at h
            simp only [Except.ok.injEq, Prod.mk.injEq] at h
            obtain ⟨h1, -⟩ := h
            subst h1
            intro e he
            rw [eq_of_mem_ite_singleton he]
          | some osw =>
            cases hsr : db.slowRes a with
            | err => simp [auditRecord, hrole, hacc, hbr, hbal, hsw, hsr] at h
            | none =>
              simp [auditRecord, hrole, hacc, hbr, hbal, hsw, hsr] at h
            | some nsw =>
              simp only [auditRecord, hacc, hbr, hbal, hsw, hsr] at h
              rw [if_neg hrole] at h
              simp only [Except.ok.injEq, Prod.mk.injEq] at h
              obtain ⟨h1, -⟩ := h
              subst h1
              intro e he
              rcases List.mem_append.mp he with h12 | h3
              · rcases List.mem_append.mp h12 with h1 | h2
                · rw [eq_of_mem_ite_singleton h1]
                · rw [eq_of_mem_ite_singleton h2]
              · rw [eq_of_mem_ite_singleton h3]

theorem compareLoop_provenance (db : DbState)
    (recs : List LegacyRecoveryV6) :
    ∀ (i s : Nat) (l : List CompareError) (sup : Nat),
      compareLoop db i s recs = Except.ok (l, sup) →
      l.Pairwise (fun e1 e2 => e1.index ≤ e2.index) ∧
      ∀ e ∈ l, ∃ k r, recs.get? k = Option.some r ∧ e.index = i + k ∧
        ∃ errs c, auditRecord db e.index r = Except.ok (errs, c) ∧
          e ∈ errs := by
  induction recs with
  | nil =>
    intro i s l sup h
    simp only [compareLoop, Except.ok.injEq, Prod.mk.injEq] at h
    obtain ⟨h1, -⟩ := h
    subst h1
    exact ⟨List.Pairwise.nil, by intro e he; simp at he⟩
  | cons r rest ih =>
    intro i s l sup h
    cases har : auditRecord db i r with
    | error e => simp [compareLoop, har] at h
    | ok p =>
      obtain ⟨errs, c⟩ := p
      cases hrec : compareLoop db (i + 1) ((s + c) % U64_MOD) rest with
      | error e => simp [compareLoop, har, hrec] at h
      | ok q =>
        obtain ⟨l2, sup2⟩ := q
        simp only [compareLoop, har, hrec, Except.ok.injEq,
          Prod.mk.injEq] at h
        obtain ⟨h1, -⟩ := h
        subst h1
        have hidx := auditRecord_index db i r errs c har
        obtain ⟨hpw, hprov⟩ := ih (i + 1) ((s + c) % U64_MOD) l2 sup2 hrec
        constructor
        · refine List.pairwise_append.mpr ⟨?_, hpw, ?_⟩
          · exact List.pairwise_of_forall_mem_list
              (fun e1 he1 e2 he2 => by rw [hidx e1 he1, hidx e2 he2])
          · intro e1 he1 e2 he2
            obtain ⟨k, r2, -, hk, -⟩ := hprov e2 he2
            rw [hidx e1 he1, hk]
            omega
        · intro e he
          rcases List.mem_append.mp he with h1 | h2
          · refine ⟨0, r, rfl, by rw [hidx e h1]; rfl, errs, c, ?_, h1⟩
            rw [hidx e h1]
            exact har
          · obtain ⟨k, r2, hget, hk, rest2⟩ := hprov e h2
            exact ⟨k + 1, r2, hget, by omega, rest2⟩

/-- C9 counterexample — the finding `index` is *not* stable across the
system-address stripping step: auditing `[recSys, recNoAccount]` yields the
missing-account finding with `index = 0`, although the record it reports is
at position `1` of the original snapshot sequence (position `0` holds the
system-address record, which normalization removes before the loop
enumerates). -/
theorem missing_account_index_not_original_position :
    compare_recovery_vec_to_genesis_tx dbSupply999 [recSys, recNoAccount] =
      Except.ok ([{ index := 0, account := Option.none, expected := 0,
                    migrated := 0, message := "account is None" }], 0) ∧
    [recSys, recNoAccount].get? 1 = Option.some recNoAccount ∧
    recNoAccount.account = Option.none ∧
    recSys.account ≠ Option.none :=
  ⟨rfl, rfl, rfl, by decide⟩

/-- C9 amended — findings are collected in input order (their `index` fields
are nondecreasing along the returned list) and every finding's `index`
equals the position, in the *normalized* (post-strip) sequence, of the
record that produced it — not its position in the original snapshot, from
which it differs whenever a stripped system-address record precedes. -/
theorem findings_ordered_with_post_strip_index (db : DbState)
    (recovery : List LegacyRecoveryV6) (l : List CompareError) (sup : Nat)
    (h : compare_recovery_vec_to_genesis_tx db recovery =
      Except.ok (l, sup)) :
    l.Pairwise (fun e1 e2 => e1.index ≤ e2.index) ∧
    ∀ e ∈ l, ∃ r, (strip_system_address recovery).get? e.index =
        Option.some r ∧
      ∃ errs c, auditRecord db e.index r = Except.ok (errs, c) ∧
        e ∈ errs := by
  obtain ⟨hpw, hprov⟩ :=
    compareLoop_provenance db (strip_system_address recovery) 0 0 l sup h
  refine ⟨hpw, ?_⟩
  intro e he
  obtain ⟨k, r, hget, hk, rest2⟩ := hprov e he
  have hek : e.index = k := by omega
  rw [hek] at rest2 ⊢
  exact ⟨r, hget, rest2⟩

/-- Witness for C9's amended theorem at the stripped two-record run. -/
theorem findings_ordered_with_post_strip_index_witness :
    compare_recovery_vec_to_genesis_tx dbSupply999 [recSys, recNoAccount] =
      Except.ok ([{ index := 0, account := Option.none, expected := 0,
                    migrated := 0, message := "account is None" }], 0) ∧
    (([{ index := 0, account := Option.none, expected := 0, migrated := 0,
         message := "account is None" }] : List CompareError).Pairwise
        (fun e1 e2 => e1.index ≤ e2.index) ∧
      ∀ e ∈ ([{ index := 0, account := Option.none, expected := 0,
                migrated := 0,
                message := "account is None" }] : List CompareError),
        ∃ r, (strip_system_address [recSys, recNoAccount]).get? e.index =
            Option.some r ∧
          ∃ errs c, auditRecord dbSupply999 e.index r =
              Except.ok (errs, c) ∧ e ∈ errs) :=
  ⟨rfl, findings_ordered_with_post_strip_index dbSupply999
    [recSys, recNoAccount] _ 0 rfl⟩

end LibraGenesis
